import Mathlib

set_option maxRecDepth 65536

/-!
Verification development for the LogVault Node.js client SDK.

The definitions below are a shallow embedding of the code in
packages/client/src/client.ts (the Client class: the log retry engine and
the local chain verifier) together with the error taxonomy of
packages/client/src/exceptions.ts.  Machine reals do not occur; the only
numeric types are Nat (byte/word arithmetic, with explicit mod 2^32 where
the JS code works on 32-bit words inside SHA-256) and Rat (millisecond
delays including the jitter drawn by Math.random()).
-/

namespace LogVault

/-! ## SHA-256

`crypto.createHash("sha256").update(s).digest("hex")` as used by
`Client.verifyEventLocally`.  Bytes and 32-bit words are Nat with explicit
`% 4294967296`.  Strings are hashed over their UTF-8 bytes, as Node's
`Hash.update` does for string input. -/

def M32 : Nat := 4294967296

def add32 (a b : Nat) : Nat := (a + b) % M32

def rotr (n x : Nat) : Nat := ((x >>> n) ||| (x <<< (32 - n))) % M32

def bsig0 (x : Nat) : Nat := (rotr 2 x) ^^^ (rotr 13 x) ^^^ (rotr 22 x)

def bsig1 (x : Nat) : Nat := (rotr 6 x) ^^^ (rotr 11 x) ^^^ (rotr 25 x)

def ssig0 (x : Nat) : Nat := (rotr 7 x) ^^^ (rotr 18 x) ^^^ (x >>> 3)

def ssig1 (x : Nat) : Nat := (rotr 17 x) ^^^ (rotr 19 x) ^^^ (x >>> 10)

def chf (x y z : Nat) : Nat := (x &&& y) ^^^ ((x ^^^ 0xFFFFFFFF) &&& z)

def maj (x y z : Nat) : Nat := (x &&& y) ^^^ (x &&& z) ^^^ (y &&& z)

def K : List Nat :=
  [1116352408, 1899447441, 3049323471, 3921009573, 961987163,
   1508970993, 2453635748, 2870763221, 3624381080, 310598401,
   607225278, 1426881987, 1925078388, 2162078206, 2614888103,
   3248222580, 3835390401, 4022224774, 264347078, 604807628,
   770255983, 1249150122, 1555081692, 1996064986, 2554220882,
   2821834349, 2952996808, 3210313671, 3336571891, 3584528711,
   113926993, 338241895, 666307205, 773529912, 1294757372,
   1396182291, 1695183700, 1986661051, 2177026350, 2456956037,
   2730485921, 2820302411, 3259730800, 3345764771, 3516065817,
   3600352804, 4094571909, 275423344, 430227734, 506948616,
   659060556, 883997877, 958139571, 1322822218, 1537002063,
   1747873779, 1955562222, 2024104815, 2227730452, 2361852424,
   2428436474, 2756734187, 3204031479, 3329325298]

/-- Working state: the eight 32-bit words of the SHA-256 compression. -/
structure Hash8 where
  a : Nat
  b : Nat
  c : Nat
  d : Nat
  e : Nat
  f : Nat
  g : Nat
  h : Nat
deriving DecidableEq, Repr

def H0 : Hash8 :=
  ⟨1779033703, 3144134277, 1013904242, 2773480762,
   1359893119, 2600822924, 528734635, 1541459225⟩

def roundStep (s : Hash8) (k w : Nat) : Hash8 :=
  let t1 := (s.h + bsig1 s.e + chf s.e s.f s.g + k + w) % M32
  let t2 := (bsig0 s.a + maj s.a s.b s.c) % M32
  ⟨(t1 + t2) % M32, s.a, s.b, s.c, (s.d + t1) % M32, s.e, s.f, s.g⟩

def rounds (s : Hash8) : List (Nat × Nat) → Hash8
  | [] => s
  | (k, w) :: rest => rounds (roundStep s k w) rest

/-- Extend the 16-word block to the 64-word message schedule.  The
accumulator holds the words produced so far in reverse order. -/
def extendSchedule : Nat → List Nat → List Nat
  | 0, acc => acc.reverse
  | n + 1, acc =>
    let g := fun i => acc.getD i 0
    extendSchedule n
      ((add32 (add32 (ssig1 (g 1)) (g 6)) (add32 (ssig0 (g 14)) (g 15))) :: acc)

def schedule (block : List Nat) : List Nat :=
  extendSchedule 48 block.reverse

def compress (s : Hash8) (block : List Nat) : Hash8 :=
  let t := rounds s (K.zip (schedule block))
  ⟨(s.a + t.a) % M32, (s.b + t.b) % M32, (s.c + t.c) % M32, (s.d + t.d) % M32,
   (s.e + t.e) % M32, (s.f + t.f) % M32, (s.g + t.g) % M32, (s.h + t.h) % M32⟩

/-- Merkle–Damgård padding: append 0x80, zero bytes up to 56 mod 64, then
the bit length as 8 big-endian bytes. -/
def padMessage (msg : List Nat) : List Nat :=
  let L := msg.length
  let zeros := (120 - ((L + 1) % 64)) % 64
  msg ++ [0x80] ++ List.replicate zeros 0 ++
    ([56, 48, 40, 32, 24, 16, 8, 0].map fun sh => ((8 * L) >>> sh) % 256)

def bytesToWords : List Nat → List Nat
  | a :: b :: c :: d :: rest => (a * 16777216 + b * 65536 + c * 256 + d) :: bytesToWords rest
  | _ => []

/-- Fold the compression over the given number of 16-word blocks. -/
def processBlocks : Nat → List Nat → Hash8 → Hash8
  | 0, _, s => s
  | n + 1, ws, s => processBlocks n (ws.drop 16) (compress s (ws.take 16))

def sha256Digest (msg : List Nat) : Hash8 :=
  let ws := bytesToWords (padMessage msg)
  processBlocks (ws.length / 16) ws H0

def nibbleHex (n : Nat) : Char :=
  if n < 10 then Char.ofNat (48 + n) else Char.ofNat (87 + n)

/-- Eight lowercase hex characters of one 32-bit word, most significant
nibble first. -/
def wordToHex (w : Nat) : String :=
  String.mk ([7, 6, 5, 4, 3, 2, 1, 0].map fun i => nibbleHex ((w >>> (4 * i)) % 16))

def digestWords (s : Hash8) : List Nat := [s.a, s.b, s.c, s.d, s.e, s.f, s.g, s.h]

/-- UTF-8 encoding of one character, as Node's string hashing uses. -/
def utf8Bytes (c : Char) : List Nat :=
  let n := c.toNat
  if n < 128 then [n]
  else if n < 2048 then [192 + n / 64, 128 + n % 64]
  else if n < 65536 then [224 + n / 4096, 128 + (n / 64) % 64, 128 + n % 64]
  else [240 + n / 262144, 128 + (n / 4096) % 64, 128 + (n / 64) % 64, 128 + n % 64]

def strBytes (s : String) : List Nat := (s.data.map utf8Bytes).flatten

/-- crypto.createHash("sha256").update(s).digest("hex") -/
def sha256hex (s : String) : String :=
  String.join ((digestWords (sha256Digest (strBytes s))).map wordToHex)

/-! ## Chain verifier — Client.verifyEventLocally

Optional TS string fields are Option String.  JavaScript truthiness tests
on such a field (`!event.chain_hash`, `prevChainHash || ...`) are false
both for an absent field and for the empty string, which jsTruthy
captures. -/

def jsTruthy (s : Option String) : Bool :=
  match s with
  | some t => decide (t ≠ "")
  | none => false

/-- The event shape verifyEventLocally reads: signature, prev_hash?,
chain_hash?. -/
structure ChainEvent where
  signature : String
  prev_hash : Option String
  chain_hash : Option String
deriving DecidableEq, Repr

structure VerifyChecks where
  hasChainHash : Bool
  chainHashValid : Bool
  prevHashMatches : Bool
deriving DecidableEq, Repr

structure LocalVerificationResult where
  isValid : Bool
  checks : VerifyChecks
  details : String
deriving DecidableEq, Repr

/-- "GENESIS_" + sha256("LogVault_Chain_Genesis_2025").hex.substring(0, 32),
recomputed (to the same value) on every verifyEventLocally call. -/
def GENESIS_HASH : String :=
  "GENESIS_" ++ (sha256hex "LogVault_Chain_Genesis_2025").take 32

def verifyEventLocally (event : ChainEvent) (prevChainHash : Option String) :
    LocalVerificationResult :=
  if ¬ jsTruthy event.chain_hash then
    ⟨false, ⟨false, false, false⟩, "Event has no chain_hash (legacy event)"⟩
  else
    let ch := event.chain_hash.getD ""
    let prev :=
      if jsTruthy prevChainHash then prevChainHash.getD ""
      else if jsTruthy event.prev_hash then event.prev_hash.getD ""
      else GENESIS_HASH
    let chainInput := event.signature ++ ":" ++ prev ++ ":" ++ "LogVault"
    let expectedChain := sha256hex chainInput
    if expectedChain = ch then
      if jsTruthy prevChainHash then
        if event.prev_hash = prevChainHash then
          ⟨true, ⟨true, true, true⟩, "Event chain integrity verified"⟩
        else
          ⟨false, ⟨true, true, false⟩,
           "prev_hash mismatch with provided previous chain hash"⟩
      else ⟨true, ⟨true, true, true⟩, "Event chain integrity verified"⟩
    else
      ⟨false, ⟨true, false, false⟩,
       "Chain hash mismatch. Expected: " ++ expectedChain.take 16 ++
         "..., Got: " ++ ch.take 16 ++ "..."⟩

/-! ## Error taxonomy — exceptions.ts

ValidationError's server-detail payload and APIError's response body are
not read by any property here and are omitted from the embedding. -/

inductive LVError where
  | authenticationError (message : String)
  | validationError (message : String) (statusCode : Option Nat)
  | rateLimitError (message : String) (retryAfter : Option Int)
  | apiError (message : String) (statusCode : Option Nat)
deriving DecidableEq, Repr

/-! ## Retry engine — Client.log

One network attempt can end as a received HTTP response (status plus the
Retry-After header value, if any), an AbortError from the timeout
controller, or a connection-level error thrown by fetch.  The sequence of
attempt outcomes and the Math.random() draws are inputs, indexed by the
attempt counter. -/

inductive FetchResult where
  | response (status : Nat) (retryAfter : Option String)
  | abortError
  | networkError (message : String)
deriving DecidableEq, Repr

def isJsSpace (c : Char) : Bool :=
  decide (c = ' ') || decide (c = '\t') || decide (c = '\n') ||
    decide (c = '\r') || decide (c = '\x0b') || decide (c = '\x0c')

def leadingDigits : List Char → List Char
  | [] => []
  | c :: cs => if c.isDigit then c :: leadingDigits cs else []

def digitsVal (ds : List Char) : Nat :=
  ds.foldl (fun acc c => 10 * acc + (c.toNat - 48)) 0

/-- parseInt(s, 10): skip whitespace, optional sign, longest digit run;
none models NaN (no digits). -/
def jsParseInt (s : String) : Option Int :=
  let cs := s.data.dropWhile isJsSpace
  let signNeg : Bool := match cs with | '-' :: _ => true | _ => false
  let rest : List Char := match cs with
    | '-' :: t => t
    | '+' :: t => t
    | t => t
  let ds := leadingDigits rest
  if ds.isEmpty then none
  else if signNeg then some (-(digitsVal ds : Int)) else some (digitsVal ds)

/-- The 429 branch: retryAfter is parseInt of the Retry-After header when
the header is truthy.  A NaN parse result is modelled as none, like an
absent header; no claim distinguishes the two. -/
def jsParseRetryAfter (h : Option String) : Option Int :=
  match h with
  | none => none
  | some s => if s = "" then none else jsParseInt s

/-- The error the catch block rethrows when it does not retry: the APIError
thrown for a non-ok, non-401/422/429 response keeps its status; timeout and
network failures become a status-less APIError with a sanitized message. -/
def finalFailError (timeoutMs : Nat) : FetchResult → LVError
  | .response st _ =>
    .apiError ("HTTP error " ++ toString st) (some st)
  | .abortError =>
    .apiError ("Network error: Request timed out (" ++ toString timeoutMs ++ "ms)") none
  | .networkError m => .apiError ("Network error: " ++ m) none

inductive StepKind where
  | succeed
  | terminal (e : LVError)
  | retryable (e : LVError)
deriving DecidableEq, Repr

/-- One pass of the try/catch body: response.ok returns; 401/422/429 throw
typed errors which the catch rethrows immediately; any other non-ok status
throws APIError(status), retried only when the status is >= 500 (or 0,
which JS truthiness treats like a missing statusCode); AbortError and fetch
failures are retried. -/
def classify (timeoutMs : Nat) : FetchResult → StepKind
  | .response st ra =>
    if 200 ≤ st ∧ st ≤ 299 then .succeed
    else if st = 401 then .terminal (.authenticationError "Invalid API key")
    else if st = 422 then .terminal (.validationError "Validation failed" (some 422))
    else if st = 429 then .terminal (.rateLimitError "Rate limit exceeded" (jsParseRetryAfter ra))
    else if 500 ≤ st ∨ st = 0 then .retryable (finalFailError timeoutMs (.response st ra))
    else .terminal (finalFailError timeoutMs (.response st ra))
  | .abortError => .retryable (finalFailError timeoutMs .abortError)
  | .networkError m => .retryable (finalFailError timeoutMs (.networkError m))

inductive LogOutcome where
  | localResponse
  | serializationFailure
  | success
  | thrown (e : LVError)
deriving DecidableEq, Repr

/-- Observable run of one log() call: how it ended, how many network
attempts were issued, and the backoff delays slept (in ms, as rationals
because of the Math.random() jitter term). -/
structure LogResult where
  outcome : LogOutcome
  attempts : Nat
  delays : List Rat
deriving DecidableEq, Repr

structure LogConfig where
  localMode : Bool
  maxRetries : Nat
  timeoutMs : Nat
deriving DecidableEq, Repr

/-- Math.pow(2, attempt) * 1000 + Math.random() * 500, with jit the
random draw in [0, 1). -/
def retryDelay (jit : Nat → Rat) (attempt : Nat) : Rat :=
  2 ^ attempt * 1000 + jit attempt * 500

/-- The while(true) loop, entered with attempt = 0.  The loop variable
attempt only grows while attempt < maxRetries, so fuel = maxRetries -
attempt is a valid termination measure; the fuel-exhausted fallback inside
the retry branch is unreachable whenever fuel = maxRetries - attempt, and
it returns the same final-failure value as the budget-exhausted path. -/
def logLoop (cfg : LogConfig) (outs : Nat → FetchResult) (jit : Nat → Rat) :
    Nat → Nat → LogResult
  | attempt, fuel =>
    match classify cfg.timeoutMs (outs attempt) with
    | .succeed => ⟨.success, attempt + 1, []⟩
    | .terminal e => ⟨.thrown e, attempt + 1, []⟩
    | .retryable e =>
      if attempt < cfg.maxRetries then
        match fuel with
        | fuel' + 1 =>
          let r := logLoop cfg outs jit (attempt + 1) fuel'
          ⟨r.outcome, r.attempts, retryDelay jit (attempt + 1) :: r.delays⟩
        | 0 => ⟨.thrown e, attempt + 1, []⟩
      else ⟨.thrown e, attempt + 1, []⟩

/-- ACTION_REGEX = /^[a-z0-9_]+(\.[a-z0-9_]+)+$/i — note the i flag: the
character class is case-insensitive. -/
def actionCharOk (c : Char) : Bool :=
  (decide ('a' ≤ c) && decide (c ≤ 'z')) ||
  (decide ('A' ≤ c) && decide (c ≤ 'Z')) ||
  (decide ('0' ≤ c) && decide (c ≤ '9')) || decide (c = '_')

def splitDots : List Char → List (List Char)
  | [] => [[]]
  | c :: rest =>
    let r := splitDots rest
    if c = '.' then [] :: r
    else
      match r with
      | s :: ss => (c :: s) :: ss
      | [] => [[c]]

/-- ACTION_REGEX.test(s): at least two dot-separated segments, each a
nonempty run of [a-z0-9_] taken case-insensitively. -/
def actionRegexTest (s : String) : Bool :=
  let segs := splitDots s.data
  decide (2 ≤ segs.length) && segs.all fun seg => (!seg.isEmpty) && seg.all actionCharOk

/-- Serialization (JSON.stringify of the event): either the body string or
a thrown exception. -/
inductive SerializationOutcome where
  | ok (body : String)
  | throws
deriving DecidableEq, Repr

/-- Steps 2 and 3 of log(): fail-safe serialization, the rough 1 MB limit
check, then the retry loop. -/
def logSend (cfg : LogConfig) (ser : SerializationOutcome)
    (outs : Nat → FetchResult) (jit : Nat → Rat) : LogResult :=
  match ser with
  | .throws => ⟨.serializationFailure, 0, []⟩
  | .ok body =>
    if body.length > 1024 * 1024 then
      ⟨.thrown (.validationError "Payload exceeds 1MB limit" none), 0, []⟩
    else logLoop cfg outs jit 0 cfg.maxRetries

/-- Client.log: local mode short-circuits to a mock response; otherwise
input sanitization (ACTION_REGEX), then serialization and the retry
loop. -/
def log (cfg : LogConfig) (action : String) (ser : SerializationOutcome)
    (outs : Nat → FetchResult) (jit : Nat → Rat) : LogResult :=
  if cfg.localMode then ⟨.localResponse, 0, []⟩
  else if ¬ actionRegexTest action then
    ⟨.thrown (.validationError
      ("Invalid action format '" ++ action ++
        "'. Expected format: 'domain.event' (e.g., auth.login)") none), 0, []⟩
  else logSend cfg ser outs jit

/-! ## Spec-side definitions (for comparison against the code) -/

/-- The action pattern as the spec words it: dot-separated segments of
lowercase letters, digits and underscore only — no i flag. -/
def specActionPattern (s : String) : Bool :=
  let segs := splitDots s.data
  decide (2 ≤ segs.length) && segs.all fun seg =>
    (!seg.isEmpty) && seg.all fun c =>
      (decide ('a' ≤ c) && decide (c ≤ 'z')) ||
      (decide ('0' ≤ c) && decide (c ≤ '9')) || decide (c = '_')

def hexDigitOk (c : Char) : Bool :=
  (decide ('0' ≤ c) && decide (c ≤ '9')) ||
  (decide ('a' ≤ c) && decide (c ≤ 'f')) ||
  (decide ('A' ≤ c) && decide (c ≤ 'F'))

/-- The spec's "32-hex-character anchor value": exactly 32 characters, all
hex digits. -/
def isHex32String (s : String) : Bool :=
  decide (s.length = 32) && s.data.all hexDigitOk

/-- The attempt outcomes the retry claims quantify over: an HTTP response
with status at least 500, a timeout, or a connection-level failure. -/
def IsRetryableOutcome (fr : FetchResult) : Prop :=
  (∃ st ra, fr = .response st ra ∧ 500 ≤ st) ∨
    fr = .abortError ∨ (∃ m, fr = .networkError m)

/-! ## Lemmas about the chain verifier -/

theorem jsTruthy_some {s : String} (h : s ≠ "") : jsTruthy (some s) = true := by
  simp [jsTruthy, h]

/-- Unfolding of verifyEventLocally when chain_hash is a nonempty string. -/
theorem verifyEventLocally_present (sig : String) (ph : Option String) (ch : String)
    (k : Option String) (hne : ch ≠ "") :
    verifyEventLocally ⟨sig, ph, some ch⟩ k =
      (let prev :=
        if jsTruthy k then k.getD ""
        else if jsTruthy ph then ph.getD "" else GENESIS_HASH
      let expected := sha256hex (sig ++ ":" ++ prev ++ ":" ++ "LogVault")
      if expected = ch then
        if jsTruthy k then
          if ph = k then
            ⟨true, ⟨true, true, true⟩, "Event chain integrity verified"⟩
          else
            ⟨false, ⟨true, true, false⟩,
             "prev_hash mismatch with provided previous chain hash"⟩
        else ⟨true, ⟨true, true, true⟩, "Event chain integrity verified"⟩
      else
        ⟨false, ⟨true, false, false⟩,
         "Chain hash mismatch. Expected: " ++ expected.take 16 ++
           "..., Got: " ++ ch.take 16 ++ "..."⟩) := by
  unfold verifyEventLocally
  simp only [jsTruthy_some hne]
  simp

/-! ## Lemmas about the retry loop -/

theorem logLoop_eq (cfg : LogConfig) (outs : Nat → FetchResult) (jit : Nat → Rat)
    (attempt fuel : Nat) :
    logLoop cfg outs jit attempt fuel =
      match classify cfg.timeoutMs (outs attempt) with
      | .succeed => ⟨.success, attempt + 1, []⟩
      | .terminal e => ⟨.thrown e, attempt + 1, []⟩
      | .retryable e =>
        if attempt < cfg.maxRetries then
          match fuel with
          | fuel' + 1 =>
            let r := logLoop cfg outs jit (attempt + 1) fuel'
            ⟨r.outcome, r.attempts, retryDelay jit (attempt + 1) :: r.delays⟩
          | 0 => ⟨.thrown e, attempt + 1, []⟩
        else ⟨.thrown e, attempt + 1, []⟩ := by
  rw [logLoop]

theorem logLoop_succeed {cfg : LogConfig} {outs : Nat → FetchResult} {jit : Nat → Rat}
    {attempt : Nat} (fuel : Nat)
    (h : classify cfg.timeoutMs (outs attempt) = .succeed) :
    logLoop cfg outs jit attempt fuel = ⟨.success, attempt + 1, []⟩ := by
  rw [logLoop_eq, h]

theorem logLoop_terminal {cfg : LogConfig} {outs : Nat → FetchResult} {jit : Nat → Rat}
    {attempt : Nat} {e : LVError} (fuel : Nat)
    (h : classify cfg.timeoutMs (outs attempt) = .terminal e) :
    logLoop cfg outs jit attempt fuel = ⟨.thrown e, attempt + 1, []⟩ := by
  rw [logLoop_eq, h]

theorem logLoop_retry {cfg : LogConfig} {outs : Nat → FetchResult} {jit : Nat → Rat}
    {attempt : Nat} {e : LVError} (fuel : Nat)
    (h : classify cfg.timeoutMs (outs attempt) = .retryable e)
    (ha : attempt < cfg.maxRetries) :
    logLoop cfg outs jit attempt (fuel + 1) =
      ⟨(logLoop cfg outs jit (attempt + 1) fuel).outcome,
       (logLoop cfg outs jit (attempt + 1) fuel).attempts,
       retryDelay jit (attempt + 1) :: (logLoop cfg outs jit (attempt + 1) fuel).delays⟩ := by
  rw [logLoop_eq, h]
  simp [ha]

theorem logLoop_exhausted {cfg : LogConfig} {outs : Nat → FetchResult} {jit : Nat → Rat}
    {attempt : Nat} {e : LVError} (fuel : Nat)
    (h : classify cfg.timeoutMs (outs attempt) = .retryable e)
    (ha : ¬ attempt < cfg.maxRetries) :
    logLoop cfg outs jit attempt fuel = ⟨.thrown e, attempt + 1, []⟩ := by
  rw [logLoop_eq, h]
  simp [ha]

theorem logLoop_zero_retry {cfg : LogConfig} {outs : Nat → FetchResult} {jit : Nat → Rat}
    {attempt : Nat} {e : LVError}
    (h : classify cfg.timeoutMs (outs attempt) = .retryable e)
    (ha : attempt < cfg.maxRetries) :
    logLoop cfg outs jit attempt 0 = ⟨.thrown e, attempt + 1, []⟩ := by
  rw [logLoop_eq, h]
  simp [ha]

theorem logLoop_attempts_le (cfg : LogConfig) (outs : Nat → FetchResult) (jit : Nat → Rat) :
    ∀ fuel attempt, (logLoop cfg outs jit attempt fuel).attempts ≤ attempt + fuel + 1 := by
  intro fuel
  induction fuel with
  | zero =>
    intro attempt
    rcases hc : classify cfg.timeoutMs (outs attempt) with _ | e | e
    · rw [logLoop_succeed _ hc]
    · rw [logLoop_terminal _ hc]
    · by_cases ha : attempt < cfg.maxRetries
      · rw [logLoop_zero_retry hc ha]
      · rw [logLoop_exhausted _ hc ha]
  | succ fuel ih =>
    intro attempt
    rcases hc : classify cfg.timeoutMs (outs attempt) with _ | e | e
    · rw [logLoop_succeed _ hc]; simp
    · rw [logLoop_terminal _ hc]; simp
    · by_cases ha : attempt < cfg.maxRetries
      · rw [logLoop_retry fuel hc ha]
        have := ih (attempt + 1)
        simp
        omega
      · rw [logLoop_exhausted _ hc ha]; simp

theorem logLoop_delays_attempts (cfg : LogConfig) (outs : Nat → FetchResult) (jit : Nat → Rat) :
    ∀ fuel attempt,
      (logLoop cfg outs jit attempt fuel).delays.length + attempt + 1 =
        (logLoop cfg outs jit attempt fuel).attempts := by
  intro fuel
  induction fuel with
  | zero =>
    intro attempt
    rcases hc : classify cfg.timeoutMs (outs attempt) with _ | e | e
    · rw [logLoop_succeed _ hc]; simp
    · rw [logLoop_terminal _ hc]; simp
    · by_cases ha : attempt < cfg.maxRetries
      · rw [logLoop_zero_retry hc ha]; simp
      · rw [logLoop_exhausted _ hc ha]; simp
  | succ fuel ih =>
    intro attempt
    rcases hc : classify cfg.timeoutMs (outs attempt) with _ | e | e
    · rw [logLoop_succeed _ hc]; simp
    · rw [logLoop_terminal _ hc]; simp
    · by_cases ha : attempt < cfg.maxRetries
      · rw [logLoop_retry fuel hc ha]
        have := ih (attempt + 1)
        simp
        omega
      · rw [logLoop_exhausted _ hc ha]; simp

theorem logLoop_outcome_cases (cfg : LogConfig) (outs : Nat → FetchResult) (jit : Nat → Rat) :
    ∀ fuel attempt,
      (logLoop cfg outs jit attempt fuel).outcome = .success ∨
        ∃ e, (logLoop cfg outs jit attempt fuel).outcome = .thrown e := by
  intro fuel
  induction fuel with
  | zero =>
    intro attempt
    rcases hc : classify cfg.timeoutMs (outs attempt) with _ | e | e
    · rw [logLoop_succeed _ hc]; simp
    · rw [logLoop_terminal _ hc]; simp
    · by_cases ha : attempt < cfg.maxRetries
      · rw [logLoop_zero_retry hc ha]; simp
      · rw [logLoop_exhausted _ hc ha]; simp
  | succ fuel ih =>
    intro attempt
    rcases hc : classify cfg.timeoutMs (outs attempt) with _ | e | e
    · rw [logLoop_succeed _ hc]; simp
    · rw [logLoop_terminal _ hc]; simp
    · by_cases ha : attempt < cfg.maxRetries
      · rw [logLoop_retry fuel hc ha]
        exact ih (attempt + 1)
      · rw [logLoop_exhausted _ hc ha]; simp

theorem logLoop_delays_getD (cfg : LogConfig) (outs : Nat → FetchResult) (jit : Nat → Rat) :
    ∀ fuel attempt k, k < (logLoop cfg outs jit attempt fuel).delays.length →
      (logLoop cfg outs jit attempt fuel).delays.getD k 0 =
        retryDelay jit (attempt + 1 + k) := by
  intro fuel
  induction fuel with
  | zero =>
    intro attempt k h
    exfalso
    rcases hc : classify cfg.timeoutMs (outs attempt) with _ | e | e
    · rw [logLoop_succeed _ hc] at h; simp at h
    · rw [logLoop_terminal _ hc] at h; simp at h
    · by_cases ha : attempt < cfg.maxRetries
      · rw [logLoop_zero_retry hc ha] at h; simp at h
      · rw [logLoop_exhausted _ hc ha] at h; simp at h
  | succ fuel ih =>
    intro attempt k h
    rcases hc : classify cfg.timeoutMs (outs attempt) with _ | e | e
    · exfalso; rw [logLoop_succeed _ hc] at h; simp at h
    · exfalso; rw [logLoop_terminal _ hc] at h; simp at h
    · by_cases ha : attempt < cfg.maxRetries
      · rw [logLoop_retry fuel hc ha] at h ⊢
        rcases k with _ | k
        · simp
        · have h' : k < (logLoop cfg outs jit (attempt + 1) fuel).delays.length := by
            simpa using h
          have := ih (attempt + 1) k h'
          simp only [List.getD_cons_succ]
          rw [this]
          congr 1
          omega
      · exfalso; rw [logLoop_exhausted _ hc ha] at h; simp at h

theorem classify_of_retryable {t : Nat} {fr : FetchResult} (h : IsRetryableOutcome fr) :
    classify t fr = .retryable (finalFailError t fr) := by
  rcases h with ⟨st, ra, rfl, hst⟩ | rfl | ⟨m, rfl⟩
  · have h1 : ¬ (200 ≤ st ∧ st ≤ 299) := by omega
    have h2 : st ≠ 401 := by omega
    have h3 : st ≠ 422 := by omega
    have h4 : st ≠ 429 := by omega
    have h5 : 500 ≤ st ∨ st = 0 := Or.inl hst
    simp [classify, h1, h2, h3, h4, h5]
  · rfl
  · rfl

/-- A run in which every attempt up to the budget fails retryably ends
thrown with the classification of the last attempt, after maxRetries + 1
attempts, sleeping the backoff delays for retries 1..fuel. -/
theorem logLoop_all_retryable (cfg : LogConfig) (outs : Nat → FetchResult) (jit : Nat → Rat) :
    ∀ fuel attempt,
      (∀ k, attempt ≤ k → k ≤ attempt + fuel → IsRetryableOutcome (outs k)) →
      attempt + fuel = cfg.maxRetries →
      logLoop cfg outs jit attempt fuel =
        ⟨.thrown (finalFailError cfg.timeoutMs (outs cfg.maxRetries)),
         cfg.maxRetries + 1,
         (List.range fuel).map fun i => retryDelay jit (attempt + 1 + i)⟩ := by
  intro fuel
  induction fuel with
  | zero =>
    intro attempt hall hmr
    have hc := classify_of_retryable (t := cfg.timeoutMs) (hall attempt le_rfl (by omega))
    have ha : ¬ attempt < cfg.maxRetries := by omega
    have heq : attempt = cfg.maxRetries := by omega
    rw [logLoop_exhausted _ hc ha, heq]
    simp
  | succ fuel ih =>
    intro attempt hall hmr
    have hc := classify_of_retryable (t := cfg.timeoutMs) (hall attempt le_rfl (by omega))
    have ha : attempt < cfg.maxRetries := by omega
    rw [logLoop_retry fuel hc ha,
      ih (attempt + 1) (fun k hk1 hk2 => hall k (by omega) (by omega)) (by omega)]
    simp only [List.range_succ_eq_map, List.map_cons, List.map_map]
    refine congrArg (fun d => LogResult.mk _ _ d) ?_
    refine congrArg₂ List.cons (by simp) ?_
    refine List.map_congr_left fun i hi => ?_
    simp [Function.comp]
    refine congrArg (retryDelay jit) (by omega)

/-! ## Lemmas about log -/

theorem log_not_local_valid {cfg : LogConfig} {action : String}
    (ser : SerializationOutcome) (outs : Nat → FetchResult) (jit : Nat → Rat)
    (hl : cfg.localMode = false) (ha : actionRegexTest action = true) :
    log cfg action ser outs jit = logSend cfg ser outs jit := by
  unfold log
  rw [hl]
  simp [ha]

theorem log_invalid_action {cfg : LogConfig} {action : String}
    (ser : SerializationOutcome) (outs : Nat → FetchResult) (jit : Nat → Rat)
    (hl : cfg.localMode = false) (ha : actionRegexTest action = false) :
    log cfg action ser outs jit =
      ⟨.thrown (.validationError
        ("Invalid action format '" ++ action ++
          "'. Expected format: 'domain.event' (e.g., auth.login)") none), 0, []⟩ := by
  unfold log
  rw [hl]
  simp [ha]

theorem logSend_ok {cfg : LogConfig} {body : String}
    (outs : Nat → FetchResult) (jit : Nat → Rat)
    (hb : ¬ body.length > 1024 * 1024) :
    logSend cfg (.ok body) outs jit = logLoop cfg outs jit 0 cfg.maxRetries := by
  unfold logSend
  simp [hb]

/-! ## Claims about the retry engine -/

/-- C2: for a log call outside local mode whose event passes pre-flight
validation, an attempt ending in HTTP 401, 422 or 429 produces exactly one
network attempt, no retry and no delay, and throws respectively
AuthenticationError, ValidationError, or RateLimitError carrying the
retryAfter parsed from the Retry-After header, regardless of the remaining
attempt budget (maxRetries is arbitrary). -/
theorem log_terminal_status_single_attempt
    (cfg : LogConfig) (action body : String) (outs : Nat → FetchResult) (jit : Nat → Rat)
    (hl : cfg.localMode = false) (ha : actionRegexTest action = true)
    (hb : ¬ body.length > 1024 * 1024) :
    (∀ ra, outs 0 = .response 401 ra →
      log cfg action (.ok body) outs jit =
        ⟨.thrown (.authenticationError "Invalid API key"), 1, []⟩) ∧
    (∀ ra, outs 0 = .response 422 ra →
      log cfg action (.ok body) outs jit =
        ⟨.thrown (.validationError "Validation failed" (some 422)), 1, []⟩) ∧
    (∀ ra, outs 0 = .response 429 ra →
      log cfg action (.ok body) outs jit =
        ⟨.thrown (.rateLimitError "Rate limit exceeded" (jsParseRetryAfter ra)), 1, []⟩) := by
  rw [log_not_local_valid _ outs jit hl ha, logSend_ok outs jit hb]
  refine ⟨fun ra h0 => ?_, fun ra h0 => ?_, fun ra h0 => ?_⟩
  · exact logLoop_terminal _ (by rw [h0]; rfl)
  · exact logLoop_terminal _ (by rw [h0]; rfl)
  · exact logLoop_terminal _ (by rw [h0]; rfl)

theorem log_terminal_status_single_attempt_witness :
    log ⟨false, 3, 10000⟩ "auth.login" (.ok "x")
        (fun _ => .response 429 (some "30")) (fun _ => 0) =
      ⟨.thrown (.rateLimitError "Rate limit exceeded" (some 30)), 1, []⟩ := by
  have h := (log_terminal_status_single_attempt ⟨false, 3, 10000⟩ "auth.login" "x"
    (fun _ => .response 429 (some "30")) (fun _ => 0) rfl (by decide) (by decide)).2.2
    (some "30") rfl
  exact h.trans (by decide)

/-- C3: for a log call outside local mode whose event passes pre-flight
validation, if every attempt up to the budget ends retryably (HTTP >= 500,
timeout, or network error), then with maxRetries = N exactly N + 1 attempts
are issued, and the thrown error is the classification of the last attempt
— an APIError carrying the last HTTP status when one was received, not a
generic retries-exhausted error. -/
theorem log_retry_exhaustion
    (cfg : LogConfig) (action body : String) (outs : Nat → FetchResult) (jit : Nat → Rat)
    (hl : cfg.localMode = false) (ha : actionRegexTest action = true)
    (hb : ¬ body.length > 1024 * 1024)
    (hr : ∀ k, k ≤ cfg.maxRetries → IsRetryableOutcome (outs k)) :
    (log cfg action (.ok body) outs jit).attempts = cfg.maxRetries + 1 ∧
    (log cfg action (.ok body) outs jit).outcome =
      .thrown (finalFailError cfg.timeoutMs (outs cfg.maxRetries)) ∧
    (∀ st ra, outs cfg.maxRetries = .response st ra →
      (log cfg action (.ok body) outs jit).outcome =
        .thrown (.apiError ("HTTP error " ++ toString st) (some st))) := by
  rw [log_not_local_valid _ outs jit hl ha, logSend_ok outs jit hb,
    logLoop_all_retryable cfg outs jit cfg.maxRetries 0
      (fun k h1 h2 => hr k (by omega)) (by omega)]
  refine ⟨rfl, rfl, ?_⟩
  intro st ra h
  simp [h, finalFailError]

theorem log_retry_exhaustion_witness :
    (log ⟨false, 2, 10000⟩ "auth.login" (.ok "x")
      (fun _ => .networkError "fail") (fun _ => 0)).attempts = 3 ∧
    (log ⟨false, 2, 10000⟩ "auth.login" (.ok "x")
      (fun _ => .networkError "fail") (fun _ => 0)).outcome =
        .thrown (.apiError "Network error: fail" none) := by
  have h := log_retry_exhaustion ⟨false, 2, 10000⟩ "auth.login" "x"
    (fun _ => .networkError "fail") (fun _ => 0) rfl (by decide) (by decide)
    (fun k _ => Or.inr (Or.inr ⟨"fail", rfl⟩))
  exact ⟨h.1, h.2.1.trans (by decide)⟩

/-- C4: every log call halts, ending as the local-mode mock response, the
marked serialization-failure value, a success, or a thrown error, and never
issues more than maxRetries + 1 network attempts — there is no unbounded
retry path. -/
theorem log_always_halts
    (cfg : LogConfig) (action : String) (ser : SerializationOutcome)
    (outs : Nat → FetchResult) (jit : Nat → Rat) :
    (log cfg action ser outs jit).attempts ≤ cfg.maxRetries + 1 ∧
    ((log cfg action ser outs jit).outcome = .localResponse ∨
     (log cfg action ser outs jit).outcome = .serializationFailure ∨
     (log cfg action ser outs jit).outcome = .success ∨
     ∃ e, (log cfg action ser outs jit).outcome = .thrown e) := by
  by_cases hl : cfg.localMode
  · simp [log, hl]
  · by_cases ha : actionRegexTest action
    · rw [log_not_local_valid ser outs jit (by simpa using hl) (by simpa using ha)]
      cases ser with
      | throws => simp [logSend]
      | ok body =>
        by_cases hb : body.length > 1024 * 1024
        · simp [logSend, hb]
        · rw [logSend_ok outs jit hb]
          constructor
          · have := logLoop_attempts_le cfg outs jit cfg.maxRetries 0
            omega
          · have := logLoop_outcome_cases cfg outs jit cfg.maxRetries 0
            tauto
    · rw [log_invalid_action ser outs jit (by simpa using hl) (by simpa using ha)]
      simp

/-- C5: with every Math.random() draw in [0, 1), the delay slept before the
k-th retry (k starting at 1) is 2^k * 1000 ms plus a jitter in [0, 500) ms
— non-jittered components 2000, 4000, 8000, ... — and there is one fewer
delay than attempts: the first try incurs no delay. -/
theorem log_backoff_delays
    (cfg : LogConfig) (action : String) (ser : SerializationOutcome)
    (outs : Nat → FetchResult) (jit : Nat → Rat)
    (hj : ∀ n, 0 ≤ jit n ∧ jit n < 1) :
    (∀ k, k < (log cfg action ser outs jit).delays.length →
      ∃ j : Rat, 0 ≤ j ∧ j < 500 ∧
        (log cfg action ser outs jit).delays.getD k 0 = 2 ^ (k + 1) * 1000 + j) ∧
    ((log cfg action ser outs jit).attempts = 0 ∨
      (log cfg action ser outs jit).delays.length + 1 =
        (log cfg action ser outs jit).attempts) := by
  by_cases hl : cfg.localMode
  · constructor
    · intro k hk
      exfalso
      simp [log, hl] at hk
    · simp [log, hl]
  · by_cases ha : actionRegexTest action
    · rw [log_not_local_valid ser outs jit (by simpa using hl) (by simpa using ha)]
      cases ser with
      | throws =>
        constructor
        · intro k hk
          exfalso
          simp [logSend] at hk
        · simp [logSend]
      | ok body =>
        by_cases hb : body.length > 1024 * 1024
        · constructor
          · intro k hk
            exfalso
            simp [logSend, hb] at hk
          · simp [logSend, hb]
        · rw [logSend_ok outs jit hb]
          constructor
          · intro k hk
            refine ⟨jit (k + 1) * 500, ?_, ?_, ?_⟩
            · exact mul_nonneg (hj (k + 1)).1 (by norm_num)
            · have h5 := mul_lt_mul_of_pos_right (hj (k + 1)).2
                (show (0 : Rat) < 500 by norm_num)
              linarith
            · have hg := logLoop_delays_getD cfg outs jit cfg.maxRetries 0 k hk
              rw [hg]
              unfold retryDelay
              have hk1 : 0 + 1 + k = k + 1 := by omega
              rw [hk1]
          · right
            have := logLoop_delays_attempts cfg outs jit cfg.maxRetries 0
            omega
    · rw [log_invalid_action ser outs jit (by simpa using hl) (by simpa using ha)]
      constructor
      · intro k hk
        exfalso
        simp at hk
      · simp

theorem log_backoff_delays_witness :
    ∃ j : Rat, 0 ≤ j ∧ j < 500 ∧
      (log ⟨false, 2, 10000⟩ "auth.login" (.ok "x")
        (fun _ => .networkError "fail") (fun _ => 0)).delays.getD 0 0 =
          2 ^ (0 + 1) * 1000 + j := by
  exact (log_backoff_delays ⟨false, 2, 10000⟩ "auth.login" (.ok "x")
    (fun _ => .networkError "fail") (fun _ => 0)
    (fun n => by norm_num)).1 0 (by decide)

/-! ## Claims about the chain verifier -/

/-- C7: an event whose chain_hash is absent yields, for any
knownPrevChainHash argument, the invalid legacy result with every check
false and the legacy-event details; the function is total, so it never
throws. -/
theorem verifyEventLocally_legacy (sig : String) (ph k : Option String) :
    verifyEventLocally ⟨sig, ph, none⟩ k =
      ⟨false, ⟨false, false, false⟩, "Event has no chain_hash (legacy event)"⟩ := rfl

/-- C1 (amended): for an event with nonempty chain_hash, prev is the
supplied knownPrevChainHash when nonempty, else a nonempty prev_hash, else
the genesis anchor (JS truthiness: an empty string falls through), and
expected is SHA-256 of signature ++ ":" ++ prev ++ ":" ++ "LogVault"; a
mismatch gives the invalid result with chainHashValid false and details
carrying the 16-character prefixes of both hashes, and a match with no
disagreeing nonempty knownPrevChainHash gives the valid result with all
three checks true. -/
theorem verifyEventLocally_chain_hash_check
    (sig : String) (ph k : Option String) (ch : String) (hne : ch ≠ "") :
    (sha256hex (sig ++ ":" ++
        (if jsTruthy k then k.getD "" else if jsTruthy ph then ph.getD "" else GENESIS_HASH) ++
        ":" ++ "LogVault") ≠ ch →
      verifyEventLocally ⟨sig, ph, some ch⟩ k =
        ⟨false, ⟨true, false, false⟩,
         "Chain hash mismatch. Expected: " ++
           (sha256hex (sig ++ ":" ++
             (if jsTruthy k then k.getD "" else if jsTruthy ph then ph.getD "" else GENESIS_HASH) ++
             ":" ++ "LogVault")).take 16 ++ "..., Got: " ++ ch.take 16 ++ "..."⟩) ∧
    (sha256hex (sig ++ ":" ++
        (if jsTruthy k then k.getD "" else if jsTruthy ph then ph.getD "" else GENESIS_HASH) ++
        ":" ++ "LogVault") = ch →
      (jsTruthy k = true → ph = k) →
      verifyEventLocally ⟨sig, ph, some ch⟩ k =
        ⟨true, ⟨true, true, true⟩, "Event chain integrity verified"⟩) := by
  constructor
  · intro hexp
    rw [verifyEventLocally_present sig ph ch k hne]
    simp only [if_neg hexp]
  · intro hexp hagree
    rw [verifyEventLocally_present sig ph ch k hne]
    simp only [if_pos hexp]
    by_cases hk : jsTruthy k
    · simp only [if_pos hk, if_pos (hagree hk)]
    · simp only [if_neg hk]

theorem verifyEventLocally_chain_hash_check_witness :
    verifyEventLocally ⟨"sig1", some GENESIS_HASH, some "deadbeef"⟩ none =
      ⟨false, ⟨true, false, false⟩,
       "Chain hash mismatch. Expected: 01afd2acf404a419..., Got: deadbeef..."⟩ := by
  exact ((verifyEventLocally_chain_hash_check "sig1" (some GENESIS_HASH) none
    "deadbeef" (by decide)).1 (by decide)).trans (by decide)

/-- C1 counterexample: knownPrevChainHash supplied as the empty string is
ignored (JS || is falsy on ""), so the code hashes with prev = prev_hash
and accepts, while the claim's prev = knownPrevChainHash would make
expected differ from chain_hash and demands an invalid result. -/
theorem verifyEventLocally_supplied_empty_prev_counterexample :
    verifyEventLocally ⟨"s", some "p",
        some "c837400ec02c4a0a15e30bece1fa6dda8866a1bcd6a11575bcaec4ec4cf750d1"⟩
      (some "") =
      ⟨true, ⟨true, true, true⟩, "Event chain integrity verified"⟩ ∧
    sha256hex ("s" ++ ":" ++ "" ++ ":" ++ "LogVault") ≠
      "c837400ec02c4a0a15e30bece1fa6dda8866a1bcd6a11575bcaec4ec4cf750d1" := by
  decide

/-- C8 (amended): with a nonempty knownPrevChainHash that differs from
prev_hash, the result is always invalid, but the distinct
prev-hash-mismatch details appear only when the chain-hash recomputation
(which uses knownPrevChainHash as prev) succeeds; when it fails, the
chain-hash-mismatch details are returned instead. -/
theorem verifyEventLocally_prev_mismatch
    (sig : String) (ph : Option String) (ch p : String)
    (hch : ch ≠ "") (hp : p ≠ "") (hdis : ph ≠ some p) :
    (verifyEventLocally ⟨sig, ph, some ch⟩ (some p)).isValid = false ∧
    (sha256hex (sig ++ ":" ++ p ++ ":" ++ "LogVault") = ch →
      verifyEventLocally ⟨sig, ph, some ch⟩ (some p) =
        ⟨false, ⟨true, true, false⟩,
         "prev_hash mismatch with provided previous chain hash"⟩) ∧
    (sha256hex (sig ++ ":" ++ p ++ ":" ++ "LogVault") ≠ ch →
      verifyEventLocally ⟨sig, ph, some ch⟩ (some p) =
        ⟨false, ⟨true, false, false⟩,
         "Chain hash mismatch. Expected: " ++
           (sha256hex (sig ++ ":" ++ p ++ ":" ++ "LogVault")).take 16 ++
           "..., Got: " ++ ch.take 16 ++ "..."⟩) := by
  have hkp : jsTruthy (some p) = true := jsTruthy_some hp
  rw [verifyEventLocally_present sig ph ch (some p) hch]
  by_cases hexp : sha256hex (sig ++ ":" ++ p ++ ":" ++ "LogVault") = ch
  · simp [hkp, hexp, hdis]
  · simp [hkp, hexp]

theorem verifyEventLocally_prev_mismatch_witness :
    verifyEventLocally ⟨"s", some "p",
        some "4bdd477afd23405ca7af6a72dc3e9e1983e320e7f8b72c37d1223822c96a7b30"⟩
      (some "q") =
      ⟨false, ⟨true, true, false⟩,
       "prev_hash mismatch with provided previous chain hash"⟩ := by
  exact (verifyEventLocally_prev_mismatch "s" (some "p")
    "4bdd477afd23405ca7af6a72dc3e9e1983e320e7f8b72c37d1223822c96a7b30" "q"
    (by decide) (by decide) (by decide)).2.1 (by decide)

/-- C8 counterexample: prev_hash "p" differs from the supplied "q", but
because the recomputation (with prev = "q") fails first, the details are
the chain-hash-mismatch message, not the distinct prev-hash-mismatch
message the claim requires independently of step 2. -/
theorem verifyEventLocally_prev_mismatch_counterexample :
    verifyEventLocally ⟨"s", some "p",
        some "c837400ec02c4a0a15e30bece1fa6dda8866a1bcd6a11575bcaec4ec4cf750d1"⟩
      (some "q") =
      ⟨false, ⟨true, false, false⟩,
       "Chain hash mismatch. Expected: 4bdd477afd23405c..., Got: c837400ec02c4a0a..."⟩ ∧
    ("Chain hash mismatch. Expected: 4bdd477afd23405c..., Got: c837400ec02c4a0a..." : String) ≠
      "prev_hash mismatch with provided previous chain hash" := by
  decide

/-- C9 (amended): the genesis anchor is the constant obtained by hashing
the published seed once and keeping the first 32 hex characters, prefixed
with the 8-character tag "GENESIS_" (so the full anchor is 40 characters,
not itself 32 hex characters); it is the prev used when verifying an event
that has no prev_hash and no supplied knownPrevChainHash. -/
theorem GENESIS_HASH_anchor :
    GENESIS_HASH = "GENESIS_" ++ (sha256hex "LogVault_Chain_Genesis_2025").take 32 ∧
    ((sha256hex "LogVault_Chain_Genesis_2025").take 32).length = 32 ∧
    isHex32String ((sha256hex "LogVault_Chain_Genesis_2025").take 32) = true ∧
    (∀ sig ch, ch ≠ "" →
      verifyEventLocally ⟨sig, none, some ch⟩ none =
        verifyEventLocally ⟨sig, some GENESIS_HASH, some ch⟩ none) := by
  refine ⟨rfl, by decide, by decide, ?_⟩
  intro sig ch hne
  rw [verifyEventLocally_present sig none ch none hne,
    verifyEventLocally_present sig (some GENESIS_HASH) ch none hne]
  simp [jsTruthy, jsTruthy_some (show GENESIS_HASH ≠ "" by decide)]

theorem GENESIS_HASH_anchor_witness :
    verifyEventLocally ⟨"s", none, some "x"⟩ none =
      verifyEventLocally ⟨"s", some GENESIS_HASH, some "x"⟩ none :=
  GENESIS_HASH_anchor.2.2.2 "s" "x" (by decide)

/-- C9 counterexample: the anchor value is 40 characters and is not a
32-hex-character string. -/
theorem GENESIS_HASH_not_32_hex :
    isHex32String GENESIS_HASH = false ∧ GENESIS_HASH.length = 40 := by
  decide

/-- C10: when the recomputed chain hash matches, a call without
knownPrevChainHash returns prevHashMatches = true (with the identical
fully-valid result a matching supplied predecessor hash would produce), so
the checks record cannot distinguish a verified predecessor link from a
skipped predecessor check. -/
theorem verifyEventLocally_no_prev_check
    (sig : String) (ph : Option String) (ch : String) (hne : ch ≠ "")
    (hmatch : sha256hex (sig ++ ":" ++
        (if jsTruthy ph then ph.getD "" else GENESIS_HASH) ++ ":" ++ "LogVault") = ch) :
    verifyEventLocally ⟨sig, ph, some ch⟩ none =
      ⟨true, ⟨true, true, true⟩, "Event chain integrity verified"⟩ ∧
    (verifyEventLocally ⟨sig, ph, some ch⟩ none).checks.prevHashMatches = true ∧
    (∀ p, ph = some p → p ≠ "" →
      verifyEventLocally ⟨sig, ph, some ch⟩ (some p) =
        verifyEventLocally ⟨sig, ph, some ch⟩ none) := by
  have h1 : verifyEventLocally ⟨sig, ph, some ch⟩ none =
      ⟨true, ⟨true, true, true⟩, "Event chain integrity verified"⟩ := by
    rw [verifyEventLocally_present sig ph ch none hne]
    simp only [show jsTruthy (none : Option String) = false from rfl,
      Bool.false_eq_true, if_false]
    rw [if_pos hmatch]
  refine ⟨h1, by rw [h1], ?_⟩
  intro p hp hpne
  subst hp
  rw [verifyEventLocally_present sig (some p) ch (some p) hne, h1]
  have hkp : jsTruthy (some p) = true := jsTruthy_some hpne
  have hm : sha256hex (sig ++ ":" ++ p ++ ":" ++ "LogVault") = ch := by
    simpa [hkp] using hmatch
  simp [hkp, hm]

theorem verifyEventLocally_no_prev_check_witness :
    verifyEventLocally ⟨"sig1", some GENESIS_HASH,
        some "01afd2acf404a419fe51ce6e464581aee31156ae920f89b7d5e2a3578c6f458d"⟩ none =
      ⟨true, ⟨true, true, true⟩, "Event chain integrity verified"⟩ :=
  (verifyEventLocally_no_prev_check "sig1" (some GENESIS_HASH)
    "01afd2acf404a419fe51ce6e464581aee31156ae920f89b7d5e2a3578c6f458d"
    (by decide) (by decide)).1

/-! ## Claims about action validation -/

/-- C6 (amended): the action pattern is applied case-insensitively (the
regex carries the i flag): an action failing the case-insensitive test —
in particular any single-segment action or one containing a character
outside letters, digits, underscore and dot — makes log throw
ValidationError with zero network attempts, and an action passing it (which
may contain uppercase letters) proceeds past the pre-flight check. -/
theorem log_action_validation
    (cfg : LogConfig) (action : String) (ser : SerializationOutcome)
    (outs : Nat → FetchResult) (jit : Nat → Rat) (hl : cfg.localMode = false) :
    (actionRegexTest action = false →
      log cfg action ser outs jit =
        ⟨.thrown (.validationError
          ("Invalid action format '" ++ action ++
            "'. Expected format: 'domain.event' (e.g., auth.login)") none), 0, []⟩) ∧
    (actionRegexTest action = true →
      log cfg action ser outs jit = logSend cfg ser outs jit) :=
  ⟨fun ha => log_invalid_action ser outs jit hl ha,
   fun ha => log_not_local_valid ser outs jit hl ha⟩

theorem log_action_validation_witness :
    log ⟨false, 3, 10000⟩ "badaction" (.ok "x")
        (fun _ => .response 200 none) (fun _ => 0) =
      ⟨.thrown (.validationError
        "Invalid action format 'badaction'. Expected format: 'domain.event' (e.g., auth.login)"
        none), 0, []⟩ := by
  exact ((log_action_validation ⟨false, 3, 10000⟩ "badaction" (.ok "x")
    (fun _ => .response 200 none) (fun _ => 0) rfl).1 (by decide)).trans (by decide)

/-- C6 counterexample: "Auth.Login" does not match the spec's lowercase
pattern, yet log accepts it and issues a network attempt instead of
throwing ValidationError. -/
theorem log_action_uppercase_counterexample :
    specActionPattern "Auth.Login" = false ∧
    log ⟨false, 3, 10000⟩ "Auth.Login" (.ok "x")
        (fun _ => .response 200 none) (fun _ => 0) =
      ⟨.success, 1, []⟩ := by
  decide

end LogVault
